import Mathlib

/-!
Verification of the bounded conversation-context manager
(scripts/agent_service.py): conversation items, token/usage estimation,
the turn-window trimming algorithm, and the session variants
(Default, Trimming, Summarizing, TrackingCompacting).

Conversation items are Python dicts; we embed them as a structure holding
exactly the keys the code reads.  Missing keys become none.  Stateful
session methods become pure state-passing functions.  The asynchronous
summarizer collaborator becomes an explicit function argument returning
Except (an exception corresponds to Except.error).
-/

/-- The nested raw payload dict some items carry (item.get("raw")). -/
structure RawPayload where
  typ : Option String := none
  output : Option String := none
  arguments : Option String := none
  response : Option String := none
  content : Option String := none
  summary : Option String := none
  details : Option String := none
  text : Option String := none
deriving Repr, DecidableEq

/-- The tool-name keys read by _is_rag_tool_item on a dict source:
"tool_name", "name" and "toolName". -/
structure ToolNameKeys where
  tool_name : Option String := none
  name : Option String := none
  toolNameCamel : Option String := none
deriving Repr, DecidableEq

/-- A conversation item (TResponseInputItem as a dict), with exactly the keys
the session code reads. -/
structure Item where
  role : Option String := none
  content : Option String := none
  messageType : Option String := none
  typ : Option String := none
  output : Option String := none
  arguments : Option String := none
  data : Option String := none
  text : Option String := none
  raw : Option RawPayload := none
  tool_name : Option String := none
  name : Option String := none
  toolNameCamel : Option String := none
  metadata : Option ToolNameKeys := none
  tool_call : Option ToolNameKeys := none
  compacted : Bool := false
deriving Repr, DecidableEq

/-- _is_user_msg: for a dict item, the role key decides whenever it is
present; every fallback branch compares a missing role and yields False. -/
def isUserMsg (it : Item) : Bool :=
  it.role = some "user"

/-- _count_user_turns: the number of user-role items. -/
def countUserTurns (items : List Item) : Nat :=
  items.countP (fun it => isUserMsg it)

/-- _estimate_tokens_from_text: 0 for empty text, otherwise
ceil(length / 4), written with Nat arithmetic. -/
def estimateTokens (text : String) : Nat :=
  if text = "" then 0 else (text.length + 3) / 4

/-- Python str.lower, embedded characterwise (ASCII case folding). -/
def lowerStr (s : String) : String := String.mk (s.data.map Char.toLower)

/-- Python str.strip, embedded characterwise: whitespace removed from both
ends. -/
def trimStr (s : String) : String :=
  String.mk (((s.data.dropWhile Char.isWhitespace).reverse.dropWhile Char.isWhitespace).reverse)

/-- Python truthiness for an optional string: missing and empty both
count as falsy. -/
def truthyD (o : Option String) : Option String :=
  match o with
  | some s => if s = "" then none else some s
  | none => none

/-- _normalize_text on a string value: strip, and drop it when empty. -/
def normText (o : Option String) : Option String :=
  match o with
  | none => none
  | some s => let t := trimStr s; if t = "" then none else some t

/-- str(item.get(key, default) or default) for a string-valued key. -/
def strOrD (o : Option String) (d : String) : String :=
  match o with
  | some s => if s = "" then d else s
  | none => d

def toolMessageTypes : List String :=
  ["function_call", "function_call_output", "tool", "tool_result"]

/-- _extract_role_and_text for a dict item: role defaults to assistant,
is overridden to tool when messageType / type / raw.type is one of the
tool message types; the text is the normalized content followed by the
extra top-level and raw payload fields, joined by single spaces. -/
def extractRoleAndText (it : Item) : String × String :=
  let role0 := lowerStr (strOrD it.role "assistant")
  let messageType :=
    lowerStr (((truthyD it.messageType).orElse (fun _ => truthyD it.typ)).getD "")
  let rawType :=
    lowerStr
      (match it.raw with
       | some r => (truthyD r.typ).getD ""
       | none => "")
  let role :=
    if messageType ∈ toolMessageTypes ∨ rawType ∈ toolMessageTypes then "tool" else role0
  let rawParts : List (Option String) :=
    match it.raw with
    | some r =>
        [normText r.output, normText r.arguments, normText r.response, normText r.content,
         normText r.summary, normText r.details, normText r.text]
    | none => []
  let parts : List (Option String) :=
    [normText it.content, normText it.output, normText it.arguments, normText it.data,
     normText it.text] ++ rawParts
  let combinedText := trimStr (String.intercalate " " (parts.filterMap id))
  (role, combinedText)

/-- _maybe_add_candidate over the three tool-name keys of one source. -/
def toolNameCandidates (src : ToolNameKeys) : List String :=
  [src.tool_name, src.name, src.toolNameCamel].filterMap (fun o =>
    match o with
    | some s => let n := lowerStr (trimStr s); if n = "" then none else some n
    | none => none)

/-- _is_rag_tool_item: any candidate tool name from the item itself, its
metadata dict or its tool_call dict equals "searchpolicy". -/
def isRagToolItem (it : Item) : Bool :=
  let itemLevel : ToolNameKeys :=
    { tool_name := it.tool_name, name := it.name, toolNameCamel := it.toolNameCamel }
  let cands :=
    toolNameCandidates itemLevel
      ++ (match it.metadata with | some m => toolNameCandidates m | none => [])
      ++ (match it.tool_call with | some m => toolNameCandidates m | none => [])
  cands.any (fun c => c = "searchpolicy")

/-- The per-session usage dict {userInput, agentOutput, tools, memory, rag,
basePrompt}; fields are integers because deltas are signed. -/
structure Usage where
  userInput : Int := 0
  agentOutput : Int := 0
  tools : Int := 0
  memory : Int := 0
  rag : Int := 0
  basePrompt : Int := 0
deriving Repr, DecidableEq

/-- One loop iteration of _estimate_usage_for_items. -/
def usageStep (u : Usage) (it : Item) : Usage :=
  let role := (extractRoleAndText it).1
  let txt := (extractRoleAndText it).2
  let tokens : Nat := estimateTokens txt
  if tokens ≤ 0 then u
  else
    let isToolRole := role = "tool" ∨ role = "tool_result"
    let u1 :=
      if role = "user" then { u with userInput := u.userInput + tokens }
      else if role = "assistant" then { u with agentOutput := u.agentOutput + tokens }
      else if isToolRole then { u with tools := u.tools + tokens }
      else { u with agentOutput := u.agentOutput + tokens }
    if isToolRole ∧ 0 < tokens ∧ isRagToolItem it then
      { u1 with rag := u1.rag + tokens }
    else u1

/-- _estimate_usage_for_items: fold the per-item bucketing over the items. -/
def estimateUsageForItems (items : List Item) : Usage :=
  items.foldl usageStep {}

/-- The backward scan of TrimmingSession._trim_to_last_turns, walking the
reversed item list: count user items; at the keep-th user item break,
returning the walked segment (the Python loop instead records its index
as start_idx; the walked segment of the reversed list is exactly the
retained suffix, reversed).  none means the loop finished without a
break, which leaves start_idx at 0. -/
def trimScanBack (keep : Nat) : Nat → List Item → Option (List Item)
  | _, [] => none
  | count, it :: rest =>
    let c := if isUserMsg it then count + 1 else count
    if isUserMsg it ∧ c = keep then some [it]
    else
      match trimScanBack keep c rest with
      | some pre => some (it :: pre)
      | none => none

/-- TrimmingSession._trim_to_last_turns: hysteresis window.  Empty input
returns (items, 0).  Below max_turns and unforced, unchanged.  Otherwise
cut to the suffix starting at the keep-th user item from the end; when the
backward scan finds no such item (fewer than keep user turns, or keep = 0)
the slice start stays 0 and the items are returned unchanged. -/
def TrimmingSession.trimToLastTurns (maxTurns keep : Nat) (force : Bool)
    (items : List Item) : List Item × Nat :=
  if items = [] then (items, 0)
  else
    let totalTurns := countUserTurns items
    if force = false ∧ totalTurns < maxTurns then (items, totalTurns)
    else
      match trimScanBack keep 0 items.reverse with
      | some pre => (pre.reverse, totalTurns)
      | none => (items, totalTurns)

/-- The mutable state of a TrimmingSession (items, internal turn counter,
parameters, trim bookkeeping and the pending context usage delta). -/
structure TrimState where
  items : List Item := []
  internalTurnCounter : Nat := 0
  maxTurns : Nat := 8
  keepLastNTurns : Nat := 8
  didTrimRecently : Bool := false
  lastTotalTurns : Nat := 0
  lastContextDeltaUsage : Usage := {}
deriving Repr, DecidableEq

/-- TrimmingSession.__init__: max_turns is clamped to at least 1;
keep_last_n_turns defaults to max_turns and is clamped into [1, max_turns]. -/
def TrimmingSession.mkState (maxTurns : Nat) (keepLastNTurns : Option Nat) : TrimState :=
  let m := max 1 maxTurns
  let k :=
    match keepLastNTurns with
    | none => m
    | some k => min (max 1 k) m
  { items := [], internalTurnCounter := 0, maxTurns := m, keepLastNTurns := k }

/-- TrimmingSession.add_items: count the new user turns, append, window with
force_trim once the counter reaches max_turns; when items were removed,
record their usage as a negative delta and reset the counter to
min(keep_last_n_turns, remaining user turns). -/
def TrimmingSession.addItems (st : TrimState) (items : List Item) : TrimState :=
  if items = [] then st
  else
    let pending := st.items ++ items
    let counter := st.internalTurnCounter + countUserTurns items
    let shouldTrim : Bool := decide (st.maxTurns ≤ counter)
    let trimmed := (TrimmingSession.trimToLastTurns st.maxTurns st.keepLastNTurns shouldTrim pending).1
    let totalTurns := (TrimmingSession.trimToLastTurns st.maxTurns st.keepLastNTurns shouldTrim pending).2
    if trimmed.length < pending.length then
      let removedCount := pending.length - trimmed.length
      let removedItems := pending.take removedCount
      let delta := estimateUsageForItems removedItems
      { st with
        items := trimmed,
        lastTotalTurns := totalTurns,
        didTrimRecently := true,
        lastContextDeltaUsage :=
          { st.lastContextDeltaUsage with
            userInput := st.lastContextDeltaUsage.userInput - delta.userInput,
            agentOutput := st.lastContextDeltaUsage.agentOutput - delta.agentOutput,
            tools := st.lastContextDeltaUsage.tools - delta.tools,
            rag := st.lastContextDeltaUsage.rag - delta.rag },
        internalTurnCounter := min st.keepLastNTurns (countUserTurns trimmed) }
    else
      { st with
        items := trimmed,
        lastTotalTurns := totalTurns,
        didTrimRecently := false,
        internalTurnCounter := counter }

/-- Python tail slice snapshot[-limit:] guarded by
(limit is not None and limit >= 0): None and negative limits return the
whole list; limit = 0 also does, because -0 is the nonnegative index 0. -/
def pyTailSlice (xs : List Item) (limit : Option Int) : List Item :=
  match limit with
  | none => xs
  | some l =>
    if 0 ≤ l then
      if l = 0 then xs else xs.drop ((xs.length : Int) - l).toNat
    else xs

/-- TrimmingSession.get_items: the windowed (unforced) view of the stored
items, then the optional tail slice. -/
def TrimmingSession.getItems (st : TrimState) (limit : Option Int) : List Item :=
  let trimmed := (TrimmingSession.trimToLastTurns st.maxTurns st.keepLastNTurns false st.items).1
  pyTailSlice trimmed limit

/-- TrimmingSession.set_max_turns. -/
def TrimmingSession.setMaxTurns (st : TrimState) (n : Nat) : TrimState :=
  let newMax := max 1 n
  if newMax = st.maxTurns then
    { st with
      keepLastNTurns := min st.keepLastNTurns st.maxTurns,
      internalTurnCounter := min st.internalTurnCounter st.maxTurns }
  else
    let st1 := { st with maxTurns := newMax, keepLastNTurns := min st.keepLastNTurns newMax }
    let trimmed := (TrimmingSession.trimToLastTurns st1.maxTurns st1.keepLastNTurns false st1.items).1
    let totalTurns := (TrimmingSession.trimToLastTurns st1.maxTurns st1.keepLastNTurns false st1.items).2
    if trimmed.length < st1.items.length then
      { st1 with
        items := trimmed,
        lastTotalTurns := totalTurns,
        didTrimRecently := true,
        internalTurnCounter := min st1.keepLastNTurns (countUserTurns trimmed) }
    else
      { st1 with
        items := trimmed,
        lastTotalTurns := totalTurns,
        didTrimRecently := false,
        internalTurnCounter := min st1.internalTurnCounter st1.maxTurns }

/-- TrimmingSession.set_keep_last_n_turns. -/
def TrimmingSession.setKeepLastNTurns (st : TrimState) (n : Nat) : TrimState :=
  let newKeep := min (max 1 n) st.maxTurns
  if newKeep = st.keepLastNTurns then
    { st with internalTurnCounter := min st.internalTurnCounter st.maxTurns }
  else
    let st1 := { st with keepLastNTurns := newKeep }
    let force := decide (st1.keepLastNTurns < countUserTurns st1.items)
    let trimmed := (TrimmingSession.trimToLastTurns st1.maxTurns st1.keepLastNTurns force st1.items).1
    let totalTurns := (TrimmingSession.trimToLastTurns st1.maxTurns st1.keepLastNTurns force st1.items).2
    if trimmed.length < st1.items.length then
      { st1 with
        items := trimmed,
        lastTotalTurns := totalTurns,
        didTrimRecently := true,
        internalTurnCounter := min st1.keepLastNTurns (countUserTurns trimmed) }
    else
      { st1 with
        items := trimmed,
        lastTotalTurns := totalTurns,
        didTrimRecently := false,
        internalTurnCounter := min st1.internalTurnCounter st1.maxTurns }

/-- The mutable state of a DefaultSession. -/
structure DefaultState where
  items : List Item := []
  internalTurnCounter : Nat := 0
  lastContextDeltaUsage : Usage := {}
deriving Repr, DecidableEq

/-- DefaultSession.get_items: snapshot with the optional tail slice. -/
def DefaultSession.getItems (st : DefaultState) (limit : Option Int) : List Item :=
  pyTailSlice st.items limit

/-- DefaultSession.add_items: append, counting user turns. -/
def DefaultSession.addItems (st : DefaultState) (items : List Item) : DefaultState :=
  if items = [] then st
  else
    { st with
      internalTurnCounter := st.internalTurnCounter + countUserTurns items,
      items := st.items ++ items }

/-- The user-item indices of a combined item list (enumerate + filter). -/
def userIndices (items : List Item) : List Nat :=
  (items.enum.filter (fun p => isUserMsg p.2)).map Prod.fst

/-- The boundary index SummarizingSession.add_items computes once the limit
is reached: 0 when keep_last_n_turns covers every user turn, the whole
length when keep_last_n_turns is 0 (with user turns present), otherwise the
index of the keep_last_n_turns-th user item from the end; clamped into the
list. -/
def summBoundaryIdx (keep : Nat) (combined : List Item) : Nat :=
  let ui := userIndices combined
  let b :=
    if keep = 0 ∨ ui.length ≤ keep then
      if ui.length ≤ keep then 0 else combined.length
    else ui.getD (ui.length - keep) 0
  min b combined.length

/-- The prefix that gets summarized: everything before the boundary. -/
def summPrefixOf (keep : Nat) (combined : List Item) : List Item :=
  combined.take (summBoundaryIdx keep combined)

/-- The suffix kept verbatim: everything from the boundary on. -/
def summSuffixOf (keep : Nat) (combined : List Item) : List Item :=
  combined.drop (summBoundaryIdx keep combined)

/-- The fixed fallback shadow line used when the summarizer call raises. -/
def fallbackShadowLine : String := "Summarize the conversation we had so far."

/-- The fixed fallback summary text used when the summarizer call raises. -/
def fallbackSummaryText : String := "Summary of earlier conversation (temporary fallback)."

/-- The synthetic user-role shadow item. -/
def userShadowItem (s : String) : Item := { role := some "user", content := some s }

/-- The synthetic assistant-role summary item. -/
def assistantSummaryItem (s : String) : Item := { role := some "assistant", content := some s }

/-- The mutable state of a SummarizingSession: the inherited trimming state
plus the last summary record and the summarize flag. -/
structure SummState where
  trim : TrimState := {}
  lastSummary : Option (String × String) := none
  didSummarizeRecently : Bool := false
deriving Repr, DecidableEq

/-- SummarizingSession.__init__: the superclass is initialized with
max_turns = context_limit; then keep_last_n_turns is overwritten with
max(0, keep_last_n_turns), with no clamp against max_turns. -/
def SummarizingSession.mkState (keepLastNTurns contextLimit : Nat) : SummState :=
  { trim := { TrimmingSession.mkState contextLimit none with keepLastNTurns := keepLastNTurns } }

/-- SummarizingSession.add_items.  The summarizer collaborator is passed in
as a function on the prefix; Except.error stands for a raised exception and
is replaced at the call site by the fixed fallback texts. -/
def SummarizingSession.addItems (summarize : List Item → Except String (String × String))
    (st : SummState) (items : List Item) : SummState :=
  if items = [] then st
  else
    let combined := st.trim.items ++ items
    let currentTurnCounter := st.trim.internalTurnCounter + countUserTurns items
    if currentTurnCounter < st.trim.maxTurns then
      -- not yet at the limit: behave like unforced trimming
      let trimmed :=
        (TrimmingSession.trimToLastTurns st.trim.maxTurns st.trim.keepLastNTurns false combined).1
      if trimmed.length < combined.length then
        { st with trim := { st.trim with
            items := trimmed,
            internalTurnCounter := min (countUserTurns trimmed) st.trim.maxTurns } }
      else
        { st with trim := { st.trim with
            items := trimmed,
            internalTurnCounter := currentTurnCounter } }
    else
      let pre := summPrefixOf st.trim.keepLastNTurns combined
      let suf := summSuffixOf st.trim.keepLastNTurns combined
      let summaryTriggered := pre ≠ []
      let summOutcome :=
        if pre = [] then ("", "", st.didSummarizeRecently)
        else
          match summarize pre with
          | Except.ok (s, t) => (s, t, true)
          | Except.error _ => (fallbackShadowLine, fallbackSummaryText, true)
      let shadowLine := summOutcome.1
      let summaryText := summOutcome.2.1
      let didSumm := summOutcome.2.2
      let syntheticItems : List Item :=
        if pre ≠ [] ∧ summaryText ≠ "" then
          (if shadowLine ≠ "" then [userShadowItem shadowLine] else [])
            ++ [assistantSummaryItem summaryText]
        else []
      let summaryPayload : Option (String × String) :=
        if pre ≠ [] ∧ summaryText ≠ "" then some (shadowLine, summaryText) else none
      let fallbackTrimmed :=
        if syntheticItems = [] then
          (TrimmingSession.trimToLastTurns st.trim.maxTurns st.trim.keepLastNTurns false combined).1
        else []
      let fallbackTrimmedChanged := syntheticItems = [] ∧ fallbackTrimmed.length < combined.length
      let removedItemsForDelta :=
        if pre ≠ [] then pre
        else if fallbackTrimmedChanged then
          combined.take (combined.length - fallbackTrimmed.length)
        else []
      let newItems := if syntheticItems = [] then fallbackTrimmed else syntheticItems ++ suf
      let newDelta : Usage :=
        if removedItemsForDelta ≠ [] then
          let removedUsage := estimateUsageForItems removedItemsForDelta
          { userInput := -removedUsage.userInput,
            agentOutput := -removedUsage.agentOutput,
            tools := -removedUsage.tools,
            memory := 0,
            rag := -removedUsage.rag,
            basePrompt := 0 }
        else {}
      let newCounter :=
        if summaryTriggered then
          min (countUserTurns suf + (if syntheticItems = [] then 0 else 1)) st.trim.maxTurns
        else if fallbackTrimmedChanged then
          min (countUserTurns fallbackTrimmed) st.trim.maxTurns
        else currentTurnCounter
      { trim := { st.trim with
          items := newItems,
          internalTurnCounter := newCounter,
          lastContextDeltaUsage := newDelta },
        lastSummary := summaryPayload,
        didSummarizeRecently := didSumm }

/-- SummarizingSession.get_last_summary. -/
def SummarizingSession.getLastSummary (st : SummState) : Option (String × String) :=
  st.lastSummary

/-- The tracked state of a TrackingCompactingSession: items, the pending
tools delta accumulated by compactions, the reported delta and the flag. -/
structure CompactState where
  items : List Item := []
  pendingToolsDelta : Int := 0
  lastContextDeltaUsage : Usage := {}
  didCompactRecently : Bool := false
deriving Repr, DecidableEq

/-- TrackingCompactingSession._token_count: items marked compacted (flag or
the compacted messageType / type markers) count as zero; otherwise the
configured counter, floored at 0. -/
def TrackingCompactingSession.tokenCount (counter : Item → Int) (it : Item) : Int :=
  if it.compacted = true
      ∨ it.messageType = some "compacted_tool_result"
      ∨ it.messageType = some "compacted_tool_call"
      ∨ it.typ = some "compacted_tool_result"
      ∨ it.typ = some "compacted_tool_call" then 0
  else max 0 (counter it)

/-- TrackingCompactingSession._record_compaction_delta: accumulate the
(after - before) token difference into the pending tools delta only when it
is negative, and mark that a compaction happened. -/
def TrackingCompactingSession.recordCompactionDelta (counter : Item → Int)
    (st : CompactState) (before after : Item) : CompactState :=
  let beforeTokens := TrackingCompactingSession.tokenCount counter before
  let afterTokens := TrackingCompactingSession.tokenCount counter after
  let delta := afterTokens - beforeTokens
  { st with
    pendingToolsDelta :=
      if delta < 0 then st.pendingToolsDelta + delta else st.pendingToolsDelta,
    didCompactRecently := true }

/-- Modelled from the spec: the superclass CompactingSession.add_items lives
in compacting_session.py, which is not among the sources here; per the spec
it appends the new items and, when its trigger is met, replaces eligible
tool-call / tool-result payloads with placeholders, reporting every replaced
pair through _record_compaction_delta.  We model its effect on the tracked
state by the list of (before, after) pairs it compacts during the call. -/
def CompactingSession.addItemsModel (counter : Item → Int)
    (compactedPairs : List (Item × Item)) (st : CompactState)
    (newItems : List Item) : CompactState :=
  compactedPairs.foldl
    (fun s p => TrackingCompactingSession.recordCompactionDelta counter s p.1 p.2)
    { st with items := st.items ++ newItems }

/-- TrackingCompactingSession.add_items: run the superclass update, then
fold the pending (nonpositive) tools delta into the reported delta exactly
once and reset it. -/
def TrackingCompactingSession.addItems (counter : Item → Int)
    (compactedPairs : List (Item × Item)) (st : CompactState)
    (newItems : List Item) : CompactState :=
  if newItems = [] then st
  else
    let st1 := CompactingSession.addItemsModel counter compactedPairs st newItems
    let toolsDelta := min 0 st1.pendingToolsDelta
    let st2 :=
      if toolsDelta ≠ 0 then
        { st1 with lastContextDeltaUsage :=
            { st1.lastContextDeltaUsage with
              tools := st1.lastContextDeltaUsage.tools + toolsDelta } }
      else st1
    { st2 with pendingToolsDelta := 0 }
/-- Spec-side definition (from the claim wording): the suffix holding the
last k complete turns, starting at the k-th user-role item counting from
the end. -/
def lastKTurnsSpec (k : Nat) : List Item → List Item
  | [] => []
  | it :: rest =>
    if isUserMsg it ∧ countUserTurns (it :: rest) = k then it :: rest
    else lastKTurnsSpec k rest

/-- The role the usage estimator assigns to an item. -/
def itemRole (it : Item) : String := (extractRoleAndText it).1

/-- The token count the usage estimator assigns to an item. -/
def itemTokens (it : Item) : Nat := estimateTokens (extractRoleAndText it).2

/-- Spec-side definition (from the claim wording): usage bucketing as a sum
of independent per-item contributions — user tokens to userInput, tool-role
tokens to tools, everything else (assistant, absent or unrecognized roles)
to agentOutput, and tool-role items naming the retrieval tool additionally
to rag. -/
def usageSpec (items : List Item) : Usage :=
  { userInput :=
      (items.map (fun it => if itemRole it = "user" then (itemTokens it : Int) else 0)).sum,
    agentOutput :=
      (items.map (fun it =>
        if itemRole it ≠ "user" ∧ ¬(itemRole it = "tool" ∨ itemRole it = "tool_result")
        then (itemTokens it : Int) else 0)).sum,
    tools :=
      (items.map (fun it =>
        if itemRole it = "tool" ∨ itemRole it = "tool_result"
        then (itemTokens it : Int) else 0)).sum,
    memory := 0,
    rag :=
      (items.map (fun it =>
        if (itemRole it = "tool" ∨ itemRole it = "tool_result") ∧ isRagToolItem it = true
        then (itemTokens it : Int) else 0)).sum,
    basePrompt := 0 }

/-- Spec-side definition (from the claim wording): the last n items of a
list. -/
def lastNSpec (xs : List Item) (n : Nat) : List Item := xs.drop (xs.length - n)

/-- The windowed view TrimmingSession.get_items computes from the stored
items before slicing. -/
def trimmedView (ts : TrimState) : List Item :=
  (TrimmingSession.trimToLastTurns ts.maxTurns ts.keepLastNTurns false ts.items).1

/-- A single-message user turn with a distinct text payload. -/
def uMsg (n : Nat) : Item := { role := some "user", content := some (toString n) }

/-- Scenario: a Trimming session with maxTurns 6 and keepLastNTurns 4 after
six single-message user turns added one at a time. -/
def trimScenario : TrimState :=
  (List.range 6).foldl (fun s i => TrimmingSession.addItems s [uMsg i])
    (TrimmingSession.mkState 6 (some 4))

/-- Scenario: a Trimming session with maxTurns 6 and keepLastNTurns 4 after
three user turns, about to be reconfigured. -/
def reconfScenario : TrimState :=
  TrimmingSession.addItems (TrimmingSession.addItems (TrimmingSession.addItems
    (TrimmingSession.mkState 6 (some 4)) [uMsg 0]) [uMsg 1]) [uMsg 2]

/-- A summarizer stub returning an empty shadow line and a nonempty summary. -/
def emptyShadowSummarizer : List Item → Except String (String × String) :=
  fun _ => Except.ok ("", "S")

/-- A summarizer stub returning a nonempty shadow line and summary. -/
def summOkStub : List Item → Except String (String × String) :=
  fun _ => Except.ok ("SH", "TX")

/-- A summarizer stub that raises. -/
def summErrStub : List Item → Except String (String × String) :=
  fun _ => Except.error "backend unavailable"

/-- Scenario: a Summarizing session with keepLastNTurns 1 and contextLimit 3
fed three user turns through the empty-shadow summarizer. -/
def summCtrScenario : SummState :=
  SummarizingSession.addItems emptyShadowSummarizer (SummarizingSession.mkState 1 3)
    [uMsg 0, uMsg 1, uMsg 2]

/-- A constant token counter for compaction scenarios. -/
def constTokenCounter : Item → Int := fun _ => 4

/-- A tool-result item before compaction. -/
def compactBeforeW : Item := { role := some "tool", content := some "0123456789abcdef" }

/-- The same item after compaction (marked). -/
def compactAfterW : Item := { role := some "tool", compacted := true }

/-- A Default session state holding three items. -/
def dsW : DefaultState := { items := [uMsg 0, uMsg 1, uMsg 2] }

/-- A Trimming session state holding two items. -/
def tsW : TrimState := { items := [uMsg 0, uMsg 1] }

theorem countUserTurns_append (a b : List Item) :
    countUserTurns (a ++ b) = countUserTurns a + countUserTurns b := by
  simp [countUserTurns, List.countP_append]

theorem countUserTurns_reverse (l : List Item) :
    countUserTurns l.reverse = countUserTurns l := by
  simp [countUserTurns]

theorem trimScanBack_some {keep : Nat} :
    ∀ (l : List Item) (count : Nat) (pre : List Item),
      trimScanBack keep count l = some pre →
      count < keep ∧ countUserTurns pre + count = keep ∧
        (∃ rest, l = pre ++ rest) ∧ ∃ q u, pre = q ++ [u] ∧ isUserMsg u = true := by
  intro l
  induction l with
  | nil => intro count pre h; simp [trimScanBack] at h
  | cons it rest ih =>
    intro count pre h
    simp only [trimScanBack] at h
    by_cases hu : isUserMsg it = true
    · by_cases hk : count + 1 = keep
      · rw [if_pos] at h
        · cases h
          refine ⟨by omega, ?_, ⟨rest, rfl⟩, ⟨[], it, rfl, hu⟩⟩
          simp [countUserTurns, List.countP_cons, hu]
          omega
        · exact ⟨hu, by simp [hu, hk]⟩
      · rw [if_neg] at h
        · cases hrec : trimScanBack keep (if isUserMsg it then count + 1 else count) rest with
          | none => rw [hrec] at h; cases h
          | some pre' =>
            rw [hrec] at h
            cases h
            rw [if_pos hu] at hrec
            obtain ⟨h1, h2, ⟨r, hr⟩, q, u, hqu, hu'⟩ := ih (count + 1) pre' hrec
            refine ⟨by omega, ?_, ⟨r, by simp [hr]⟩, ⟨it :: q, u, by simp [hqu], hu'⟩⟩
            simp only [countUserTurns, List.countP_cons] at h2 ⊢
            simp [hu] at h2 ⊢
            omega
        · intro hc
          exact hk (by simpa [hu] using hc.2)
    · rw [if_neg] at h
      · cases hrec : trimScanBack keep (if isUserMsg it then count + 1 else count) rest with
        | none => rw [hrec] at h; cases h
        | some pre' =>
          rw [hrec] at h
          cases h
          rw [if_neg hu] at hrec
          obtain ⟨h1, h2, ⟨r, hr⟩, q, u, hqu, hu'⟩ := ih count pre' hrec
          refine ⟨h1, ?_, ⟨r, by simp [hr]⟩, ⟨it :: q, u, by simp [hqu], hu'⟩⟩
          simp only [countUserTurns, List.countP_cons] at h2 ⊢
          simp [hu] at h2 ⊢
          omega
      · intro hc
        exact hu hc.1

theorem trimScanBack_none {keep : Nat} :
    ∀ (l : List Item) (count : Nat),
      trimScanBack keep count l = none → count < keep →
      count + countUserTurns l < keep := by
  intro l
  induction l with
  | nil => intro count _ h; simpa [countUserTurns] using h
  | cons it rest ih =>
    intro count h hlt
    simp only [trimScanBack] at h
    by_cases hu : isUserMsg it = true
    · by_cases hk : count + 1 = keep
      · rw [if_pos ⟨hu, by simp [hu, hk]⟩] at h; cases h
      · rw [if_neg (fun hc => hk (by simpa [hu] using hc.2))] at h
        cases hrec : trimScanBack keep (if isUserMsg it then count + 1 else count) rest with
        | some pre' => rw [hrec] at h; cases h
        | none =>
          rw [if_pos hu] at hrec
          have := ih (count + 1) hrec (by omega)
          simp only [countUserTurns, List.countP_cons] at this ⊢
          simp [hu] at this ⊢
          omega
    · rw [if_neg (fun hc => hu hc.1)] at h
      cases hrec : trimScanBack keep (if isUserMsg it then count + 1 else count) rest with
      | some pre' => rw [hrec] at h; cases h
      | none =>
        rw [if_neg hu] at hrec
        have := ih count hrec hlt
        simp only [countUserTurns, List.countP_cons] at this ⊢
        simp [hu] at this ⊢
        omega

theorem trimScanBack_zero :
    ∀ (l : List Item) (count : Nat), trimScanBack 0 count l = none := by
  intro l
  induction l with
  | nil => intro count; simp [trimScanBack]
  | cons it rest ih =>
    intro count
    simp only [trimScanBack]
    rw [if_neg]
    · rw [ih]
    · rintro ⟨hu, hc⟩
      simp [hu] at hc

theorem lastKTurnsSpec_append (k : Nat) :
    ∀ (l₁ l₂ : List Item), countUserTurns l₂ = k →
      (∃ u t, l₂ = u :: t ∧ isUserMsg u = true) →
      lastKTurnsSpec k (l₁ ++ l₂) = l₂ := by
  intro l₁
  induction l₁ with
  | nil =>
    intro l₂ hcount hex
    obtain ⟨u, t, hl, hu⟩ := hex
    subst hl
    simp only [List.nil_append, lastKTurnsSpec]
    rw [if_pos ⟨hu, hcount⟩]
  | cons a l₁ ih =>
    intro l₂ hcount hex
    simp only [List.cons_append, lastKTurnsSpec]
    rw [if_neg]
    · exact ih l₂ hcount hex
    · rintro ⟨ha, hc⟩
      simp [countUserTurns, List.countP_cons, List.countP_append, ha] at hc
      simp only [countUserTurns] at hcount
      omega

theorem trim_snd (maxT keep : Nat) (force : Bool) (items : List Item) :
    (TrimmingSession.trimToLastTurns maxT keep force items).2 = countUserTurns items := by
  simp only [TrimmingSession.trimToLastTurns]
  by_cases h : items = []
  · simp [h, countUserTurns]
  · rw [if_neg h]
    by_cases h2 : force = false ∧ countUserTurns items < maxT
    · rw [if_pos h2]
    · rw [if_neg h2]
      cases hscan : trimScanBack keep 0 items.reverse <;> simp

theorem trim_below (maxT keep : Nat) (items : List Item)
    (h2 : countUserTurns items < maxT) :
    (TrimmingSession.trimToLastTurns maxT keep false items).1 = items := by
  simp only [TrimmingSession.trimToLastTurns]
  by_cases h : items = []
  · simp [h]
  · rw [if_neg h, if_pos ⟨trivial, h2⟩]

theorem trim_cut (maxT keep : Nat) (force : Bool) (items : List Item)
    (hk : 1 ≤ keep)
    (hcond : ¬(force = false ∧ countUserTurns items < maxT))
    (hge : keep ≤ countUserTurns items) :
    (TrimmingSession.trimToLastTurns maxT keep force items).1 = lastKTurnsSpec keep items ∧
    countUserTurns (TrimmingSession.trimToLastTurns maxT keep force items).1 = keep ∧
    (TrimmingSession.trimToLastTurns maxT keep force items).1 <:+ items := by
  have hne : items ≠ [] := by
    intro h
    subst h
    simp [countUserTurns] at hge
    omega
  simp only [TrimmingSession.trimToLastTurns]
  rw [if_neg hne, if_neg hcond]
  cases hscan : trimScanBack keep 0 items.reverse with
  | none =>
    exfalso
    have := trimScanBack_none items.reverse 0 hscan (by omega)
    rw [countUserTurns_reverse] at this
    omega
  | some pre =>
    obtain ⟨h1, h2, ⟨r, hr⟩, q, u, hqu, hu⟩ := trimScanBack_some items.reverse 0 pre hscan
    have hitems : items = r.reverse ++ pre.reverse := by
      have := congrArg List.reverse hr
      simpa using this
    have hcnt : countUserTurns pre.reverse = keep := by
      rw [countUserTurns_reverse]; omega
    have hhead : ∃ u' t, pre.reverse = u' :: t ∧ isUserMsg u' = true := by
      refine ⟨u, q.reverse, ?_, hu⟩
      rw [hqu]
      simp
    constructor
    · rw [hitems]
      exact (lastKTurnsSpec_append keep r.reverse pre.reverse hcnt hhead).symm
    constructor
    · exact hcnt
    · exact ⟨r.reverse, hitems.symm⟩

theorem trim_few (maxT keep : Nat) (force : Bool) (items : List Item)
    (hlt : countUserTurns items < keep) :
    (TrimmingSession.trimToLastTurns maxT keep force items).1 = items := by
  simp only [TrimmingSession.trimToLastTurns]
  by_cases hne : items = []
  · simp [hne]
  · rw [if_neg hne]
    by_cases h2 : force = false ∧ countUserTurns items < maxT
    · rw [if_pos h2]
    · rw [if_neg h2]
      cases hscan : trimScanBack keep 0 items.reverse with
      | none => rfl
      | some pre =>
        exfalso
        obtain ⟨h1, h2, ⟨r, hr⟩, _⟩ := trimScanBack_some items.reverse 0 pre hscan
        have : countUserTurns pre ≤ countUserTurns items := by
          have : countUserTurns items.reverse = countUserTurns pre + countUserTurns r := by
            rw [hr, countUserTurns_append]
          rw [countUserTurns_reverse] at this
          omega
        omega

theorem trim_zero_keep (maxT : Nat) (force : Bool) (items : List Item) :
    TrimmingSession.trimToLastTurns maxT 0 force items = (items, countUserTurns items) := by
  simp only [TrimmingSession.trimToLastTurns]
  by_cases hne : items = []
  · simp [hne, countUserTurns]
  · rw [if_neg hne]
    by_cases h2 : force = false ∧ countUserTurns items < maxT
    · rw [if_pos h2]
    · rw [if_neg h2, trimScanBack_zero]

theorem trim_sublist (maxT keep : Nat) (force : Bool) (items : List Item) :
    ((TrimmingSession.trimToLastTurns maxT keep force items).1).Sublist items := by
  simp only [TrimmingSession.trimToLastTurns]
  by_cases hne : items = []
  · simp [hne]
  · rw [if_neg hne]
    by_cases h2 : force = false ∧ countUserTurns items < maxT
    · rw [if_pos h2]
    · rw [if_neg h2]
      cases hscan : trimScanBack keep 0 items.reverse with
      | none => simp
      | some pre =>
        obtain ⟨h1, h2, ⟨r, hr⟩, _⟩ := trimScanBack_some items.reverse 0 pre hscan
        have hitems : items = r.reverse ++ pre.reverse := by
          have := congrArg List.reverse hr
          simpa using this
        have hsuf : pre.reverse <:+ items := ⟨r.reverse, hitems.symm⟩
        simpa using hsuf.sublist

theorem suffix_eq_of_not_shorter {l₁ l₂ : List Item} (h : l₁ <:+ l₂)
    (hlen : ¬ l₁.length < l₂.length) : l₁ = l₂ := by
  obtain ⟨t, ht⟩ := h
  have : t.length + l₁.length = l₂.length := by
    rw [← ht, List.length_append]
  have ht0 : t = [] := by
    cases t with
    | nil => rfl
    | cons a t => simp at this; omega
  rw [ht0] at ht
  simpa using ht

theorem trimming_addItems_bound (st : TrimState) (new : List Item)
    (hne : new ≠ [])
    (hsync : st.internalTurnCounter = countUserTurns st.items)
    (hk1 : 1 ≤ st.keepLastNTurns) (hkm : st.keepLastNTurns ≤ st.maxTurns) :
    countUserTurns (TrimmingSession.addItems st new).items ≤ st.maxTurns ∧
    ((TrimmingSession.addItems st new).didTrimRecently = true →
      countUserTurns (TrimmingSession.addItems st new).items = st.keepLastNTurns) ∧
    (TrimmingSession.addItems st new).internalTurnCounter =
      countUserTurns (TrimmingSession.addItems st new).items := by
  have hpend : countUserTurns (st.items ++ new) =
      st.internalTurnCounter + countUserTurns new := by
    rw [countUserTurns_append, hsync]
  simp only [TrimmingSession.addItems, if_neg hne]
  by_cases hcase : st.maxTurns ≤ st.internalTurnCounter + countUserTurns new
  · have hforce : decide (st.maxTurns ≤ st.internalTurnCounter + countUserTurns new) = true := by
      simpa using hcase
    rw [hforce]
    have hge : st.keepLastNTurns ≤ countUserTurns (st.items ++ new) := by omega
    obtain ⟨hspec, hcnt, hsuf⟩ :=
      trim_cut st.maxTurns st.keepLastNTurns true (st.items ++ new) hk1 (by simp) hge
    by_cases hlen :
        (TrimmingSession.trimToLastTurns st.maxTurns st.keepLastNTurns true (st.items ++ new)).1.length
          < (st.items ++ new).length
    · rw [if_pos hlen]
      dsimp only
      refine ⟨by omega, fun _ => hcnt, ?_⟩
      simp only [hcnt]
      omega
    · rw [if_neg hlen]
      dsimp only
      have heq := suffix_eq_of_not_shorter hsuf hlen
      refine ⟨by omega, by simp, ?_⟩
      rw [heq]
      omega
  · have hforce : decide (st.maxTurns ≤ st.internalTurnCounter + countUserTurns new) = false := by
      simpa using hcase
    rw [hforce]
    have hbelow := trim_below st.maxTurns st.keepLastNTurns (st.items ++ new) (by omega)
    rw [hbelow]
    rw [if_neg (by omega)]
    dsimp only
    exact ⟨by omega, by simp, by rw [hpend]⟩

theorem setMaxTurns_keeps_delta (st : TrimState) (n : Nat) :
    (TrimmingSession.setMaxTurns st n).lastContextDeltaUsage = st.lastContextDeltaUsage := by
  simp only [TrimmingSession.setMaxTurns]
  split_ifs <;> rfl

theorem setKeepLastNTurns_keeps_delta (st : TrimState) (n : Nat) :
    (TrimmingSession.setKeepLastNTurns st n).lastContextDeltaUsage = st.lastContextDeltaUsage := by
  simp only [TrimmingSession.setKeepLastNTurns]
  split_ifs <;> rfl

theorem setKeep_spec (st : TrimState) (n : Nat)
    (hsync : st.internalTurnCounter = countUserTurns st.items)
    (hm1 : 1 ≤ st.maxTurns)
    (hne : min (max 1 n) st.maxTurns ≠ st.keepLastNTurns) :
    countUserTurns (TrimmingSession.setKeepLastNTurns st n).items =
      min (min (max 1 n) st.maxTurns) (countUserTurns st.items) ∧
    (TrimmingSession.setKeepLastNTurns st n).internalTurnCounter =
      countUserTurns (TrimmingSession.setKeepLastNTurns st n).items := by
  simp only [TrimmingSession.setKeepLastNTurns, if_neg hne]
  dsimp only
  have hK1 : 1 ≤ min (max 1 n) st.maxTurns := by omega
  by_cases hforce : min (max 1 n) st.maxTurns < countUserTurns st.items
  · have hdec : decide (min (max 1 n) st.maxTurns < countUserTurns st.items) = true := by
      simpa using hforce
    rw [hdec]
    obtain ⟨hspec, hcnt, hsuf⟩ :=
      trim_cut st.maxTurns (min (max 1 n) st.maxTurns) true st.items hK1 (by simp) (by omega)
    have hlen :
        (TrimmingSession.trimToLastTurns st.maxTurns (min (max 1 n) st.maxTurns) true st.items).1.length
          < st.items.length := by
      by_contra hlen
      have heq := suffix_eq_of_not_shorter hsuf hlen
      rw [heq] at hcnt
      omega
    rw [if_pos hlen]
    dsimp only
    constructor
    · omega
    · omega
  · have hdec : decide (min (max 1 n) st.maxTurns < countUserTurns st.items) = false := by
      simpa using hforce
    rw [hdec]
    by_cases hmax : countUserTurns st.items < st.maxTurns
    · have hbelow := trim_below st.maxTurns (min (max 1 n) st.maxTurns) st.items hmax
      rw [hbelow, if_neg (by omega)]
      dsimp only
      constructor
      · omega
      · omega
    · obtain ⟨hspec, hcnt, hsuf⟩ :=
        trim_cut st.maxTurns (min (max 1 n) st.maxTurns) false st.items hK1
          (by simp; omega) (by omega)
      by_cases hlen :
          (TrimmingSession.trimToLastTurns st.maxTurns (min (max 1 n) st.maxTurns) false st.items).1.length
            < st.items.length
      · rw [if_pos hlen]
        dsimp only
        constructor
        · omega
        · omega
      · rw [if_neg hlen]
        dsimp only
        have heq := suffix_eq_of_not_shorter hsuf hlen
        rw [heq] at hcnt
        constructor
        · rw [heq]
          omega
        · rw [heq]
          omega

theorem setMax_spec (st : TrimState) (m : Nat)
    (hsync : st.internalTurnCounter = countUserTurns st.items)
    (hk1 : 1 ≤ st.keepLastNTurns)
    (hneq : max 1 m ≠ st.maxTurns) :
    countUserTurns (TrimmingSession.setMaxTurns st m).items =
      (if countUserTurns st.items < max 1 m then countUserTurns st.items
       else min st.keepLastNTurns (max 1 m)) ∧
    (TrimmingSession.setMaxTurns st m).internalTurnCounter =
      countUserTurns (TrimmingSession.setMaxTurns st m).items := by
  simp only [TrimmingSession.setMaxTurns, if_neg hneq]
  have hK1 : 1 ≤ min st.keepLastNTurns (max 1 m) := by omega
  by_cases hbelow : countUserTurns st.items < max 1 m
  · have htrim := trim_below (max 1 m) (min st.keepLastNTurns (max 1 m)) st.items hbelow
    rw [htrim, if_neg (by omega)]
    dsimp only
    rw [if_pos hbelow]
    omega
  · obtain ⟨hspec, hcnt, hsuf⟩ :=
      trim_cut (max 1 m) (min st.keepLastNTurns (max 1 m)) false st.items hK1
        (by simp; omega) (by omega)
    rw [if_neg hbelow]
    by_cases hlen :
        (TrimmingSession.trimToLastTurns (max 1 m) (min st.keepLastNTurns (max 1 m))
            false st.items).1.length < st.items.length
    · rw [if_pos hlen]
      dsimp only
      constructor
      · omega
      · omega
    · rw [if_neg hlen]
      dsimp only
      have heq := suffix_eq_of_not_shorter hsuf hlen
      rw [heq] at hcnt
      constructor
      · rw [heq]
        omega
      · rw [heq]
        omega

theorem usageStep_eq (u : Usage) (it : Item) :
    usageStep u it =
      { userInput := u.userInput + (if itemRole it = "user" then (itemTokens it : Int) else 0),
        agentOutput := u.agentOutput +
          (if itemRole it ≠ "user" ∧ ¬(itemRole it = "tool" ∨ itemRole it = "tool_result")
           then (itemTokens it : Int) else 0),
        tools := u.tools +
          (if itemRole it = "tool" ∨ itemRole it = "tool_result"
           then (itemTokens it : Int) else 0),
        memory := u.memory,
        rag := u.rag +
          (if (itemRole it = "tool" ∨ itemRole it = "tool_result") ∧ isRagToolItem it = true
           then (itemTokens it : Int) else 0),
        basePrompt := u.basePrompt } := by
  simp only [usageStep, itemRole, itemTokens]
  by_cases h0 : estimateTokens (extractRoleAndText it).2 ≤ 0
  · have hz : estimateTokens (extractRoleAndText it).2 = 0 := by omega
    rw [if_pos h0]
    simp [hz]
  · rw [if_neg h0]
    split_ifs <;> simp_all

theorem foldl_usageStep (items : List Item) : ∀ u : Usage,
    items.foldl usageStep u =
      { userInput := u.userInput + (usageSpec items).userInput,
        agentOutput := u.agentOutput + (usageSpec items).agentOutput,
        tools := u.tools + (usageSpec items).tools,
        memory := u.memory + (usageSpec items).memory,
        rag := u.rag + (usageSpec items).rag,
        basePrompt := u.basePrompt + (usageSpec items).basePrompt } := by
  induction items with
  | nil => intro u; simp [usageSpec]
  | cons it rest ih =>
    intro u
    rw [List.foldl_cons, ih, usageStep_eq]
    simp only [usageSpec, List.map_cons, List.sum_cons]
    rw [Usage.mk.injEq]
    refine ⟨by ring, by ring, by ring, by ring, by ring, by ring⟩

theorem estimateUsage_eq_spec (items : List Item) :
    estimateUsageForItems items = usageSpec items := by
  rw [estimateUsageForItems, foldl_usageStep]
  simp [usageSpec]

theorem recordCompactionDelta_pending (counter : Item → Int) (st : CompactState)
    (before after : Item) :
    (TrackingCompactingSession.recordCompactionDelta counter st before after).pendingToolsDelta =
      st.pendingToolsDelta +
        min 0 (TrackingCompactingSession.tokenCount counter after -
               TrackingCompactingSession.tokenCount counter before) := by
  simp only [TrackingCompactingSession.recordCompactionDelta]
  split_ifs with h <;> omega

theorem recordCompactionDelta_rest (counter : Item → Int) (st : CompactState)
    (before after : Item) :
    (TrackingCompactingSession.recordCompactionDelta counter st before after).lastContextDeltaUsage =
      st.lastContextDeltaUsage ∧
    (TrackingCompactingSession.recordCompactionDelta counter st before after).items = st.items := by
  simp [TrackingCompactingSession.recordCompactionDelta]

theorem foldRecord_spec (counter : Item → Int) (pairs : List (Item × Item)) :
    ∀ st : CompactState,
      (pairs.foldl
        (fun s p => TrackingCompactingSession.recordCompactionDelta counter s p.1 p.2)
        st).pendingToolsDelta =
        st.pendingToolsDelta +
          (pairs.map (fun p =>
            min 0 (TrackingCompactingSession.tokenCount counter p.2 -
                   TrackingCompactingSession.tokenCount counter p.1))).sum ∧
      (pairs.foldl
        (fun s p => TrackingCompactingSession.recordCompactionDelta counter s p.1 p.2)
        st).lastContextDeltaUsage = st.lastContextDeltaUsage := by
  induction pairs with
  | nil => intro st; simp
  | cons p rest ih =>
    intro st
    rw [List.foldl_cons]
    obtain ⟨h1, h2⟩ := ih (TrackingCompactingSession.recordCompactionDelta counter st p.1 p.2)
    rw [List.map_cons, List.sum_cons]
    refine ⟨?_, ?_⟩
    · rw [h1, recordCompactionDelta_pending]
      omega
    · rw [h2, (recordCompactionDelta_rest counter st p.1 p.2).1]

theorem sum_min_nonpos (l : List Int) (h : ∀ x ∈ l, x ≤ 0) : l.sum ≤ 0 := by
  induction l with
  | nil => simp
  | cons a rest ih =>
    rw [List.sum_cons]
    have ha := h a (by simp)
    have := ih (fun x hx => h x (by simp [hx]))
    omega

theorem pyTailSlice_pos (xs : List Item) (l : Int) (h : 0 < l) :
    pyTailSlice xs (some l) = xs.drop (xs.length - l.toNat) := by
  simp only [pyTailSlice]
  rw [if_pos (by omega), if_neg (by omega)]
  congr 1
  omega

theorem pyTailSlice_zero (xs : List Item) : pyTailSlice xs (some 0) = xs := by
  simp [pyTailSlice]

theorem pyTailSlice_neg (xs : List Item) (l : Int) (h : l < 0) :
    pyTailSlice xs (some l) = xs := by
  simp only [pyTailSlice]
  rw [if_neg (by omega)]

theorem compacting_addItems_spec (counter : Item → Int) (pairs : List (Item × Item))
    (st : CompactState) (new : List Item)
    (hne : new ≠ []) (hpend : st.pendingToolsDelta ≤ 0) :
    (TrackingCompactingSession.addItems counter pairs st new).pendingToolsDelta = 0 ∧
    (TrackingCompactingSession.addItems counter pairs st new).lastContextDeltaUsage.tools =
      st.lastContextDeltaUsage.tools + st.pendingToolsDelta +
        (pairs.map (fun p =>
          min 0 (TrackingCompactingSession.tokenCount counter p.2 -
                 TrackingCompactingSession.tokenCount counter p.1))).sum := by
  simp only [TrackingCompactingSession.addItems, if_neg hne,
    CompactingSession.addItemsModel]
  obtain ⟨hp, hd⟩ := foldRecord_spec counter pairs { st with items := st.items ++ new }
  have hS : (pairs.map (fun p =>
      min 0 (TrackingCompactingSession.tokenCount counter p.2 -
             TrackingCompactingSession.tokenCount counter p.1))).sum ≤ 0 := by
    apply sum_min_nonpos
    intro x hx
    simp only [List.mem_map] at hx
    obtain ⟨p, _, hpx⟩ := hx
    omega
  dsimp only at hp hd
  by_cases hz : min 0 (pairs.foldl
      (fun s p => TrackingCompactingSession.recordCompactionDelta counter s p.1 p.2)
      { st with items := st.items ++ new }).pendingToolsDelta ≠ 0
  · rw [if_pos hz]
    refine ⟨by simp, ?_⟩
    dsimp only
    rw [hd, hp]
    omega
  · rw [if_neg hz]
    refine ⟨by simp, ?_⟩
    dsimp only
    rw [hd]
    have hz' := not_not.mp hz
    rw [hp] at hz'
    omega

/-- C1: For a TrimmingSession with parameters (maxTurns, keepLastNTurns),
after any nonempty add_items call (starting from a state whose internal
turn counter agrees with its stored user-item count) the number of
user-role items stored is at most maxTurns, a call that trimmed leaves
exactly keepLastNTurns user-role items, and the counter invariant is
preserved; concretely, with maxTurns 6 and keepLastNTurns 4, adding six
single-message user turns one at a time leaves get_items holding exactly
the items of the last four user turns. -/
theorem claim_C1 (st : TrimState) (new : List Item)
    (hne : new ≠ [])
    (hsync : st.internalTurnCounter = countUserTurns st.items)
    (hk1 : 1 ≤ st.keepLastNTurns) (hkm : st.keepLastNTurns ≤ st.maxTurns) :
    countUserTurns (TrimmingSession.addItems st new).items ≤ st.maxTurns ∧
    ((TrimmingSession.addItems st new).didTrimRecently = true →
      countUserTurns (TrimmingSession.addItems st new).items = st.keepLastNTurns) ∧
    (TrimmingSession.addItems st new).internalTurnCounter =
      countUserTurns (TrimmingSession.addItems st new).items ∧
    TrimmingSession.getItems trimScenario none = [uMsg 2, uMsg 3, uMsg 4, uMsg 5] :=
  ⟨(trimming_addItems_bound st new hne hsync hk1 hkm).1,
   (trimming_addItems_bound st new hne hsync hk1 hkm).2.1,
   (trimming_addItems_bound st new hne hsync hk1 hkm).2.2,
   by decide⟩

/-- Witness for C1 at a concrete session state and input. -/
theorem claim_C1_witness :
    1 ≤ (TrimmingSession.mkState 6 (some 4)).keepLastNTurns ∧
    countUserTurns (TrimmingSession.addItems (TrimmingSession.mkState 6 (some 4)) [uMsg 0]).items
      ≤ (TrimmingSession.mkState 6 (some 4)).maxTurns :=
  ⟨by decide,
   (claim_C1 (TrimmingSession.mkState 6 (some 4)) [uMsg 0]
      (by decide) (by decide) (by decide) (by decide)).1⟩

/-- C2: The windowing function reports the user-turn count; unforced and
below maxTurns it returns the sequence unchanged with that count; forced or
at/above maxTurns it returns the contiguous suffix starting at the
keepLastNTurns-th user item from the end when enough user turns exist, and
the unchanged sequence when fewer exist; the result is always an
order-preserving sublist. -/
theorem claim_C2 (maxT keep : Nat) (force : Bool) (items : List Item) (hk : 1 ≤ keep) :
    (TrimmingSession.trimToLastTurns maxT keep force items).2 = countUserTurns items ∧
    (force = false → countUserTurns items < maxT →
      TrimmingSession.trimToLastTurns maxT keep force items = (items, countUserTurns items)) ∧
    ((force = true ∨ maxT ≤ countUserTurns items) →
      (keep ≤ countUserTurns items →
        (TrimmingSession.trimToLastTurns maxT keep force items).1 = lastKTurnsSpec keep items ∧
        countUserTurns (TrimmingSession.trimToLastTurns maxT keep force items).1 = keep) ∧
      (countUserTurns items < keep →
        (TrimmingSession.trimToLastTurns maxT keep force items).1 = items)) ∧
    ((TrimmingSession.trimToLastTurns maxT keep force items).1).Sublist items := by
  refine ⟨trim_snd maxT keep force items, ?_, ?_, trim_sublist maxT keep force items⟩
  · intro hf hlt
    subst hf
    have h1 := trim_below maxT keep items hlt
    have h2 := trim_snd maxT keep false items
    rw [Prod.ext_iff]
    exact ⟨h1, h2⟩
  · intro hcase
    have hcond : ¬(force = false ∧ countUserTurns items < maxT) := by
      rcases hcase with hf | hm
      · rintro ⟨h1, _⟩
        rw [hf] at h1
        cases h1
      · rintro ⟨_, h2⟩
        omega
    refine ⟨fun hge => ⟨(trim_cut maxT keep force items hk hcond hge).1,
                        (trim_cut maxT keep force items hk hcond hge).2.1⟩,
            fun hlt => trim_few maxT keep force items hlt⟩

/-- Witness for C2 at a concrete input. -/
theorem claim_C2_witness :
    (1 ≤ 4) ∧ ((TrimmingSession.trimToLastTurns 6 4 false [uMsg 0]).1).Sublist [uMsg 0] :=
  ⟨by decide, (claim_C2 6 4 false [uMsg 0] (by decide)).2.2.2⟩

/-- C3: When a SummarizingSession add_items call triggers summarization with
a nonempty prefix and a nonempty summary text, the stored sequence becomes
exactly the one or two synthetic items (the user-role shadow item only when
the shadow line is nonempty, then the assistant-role summary item) followed
by the suffix unchanged, so no original prefix item remains; the summary
record is stored. -/
theorem claim_C3 (f : List Item → Except String (String × String))
    (st : SummState) (items : List Item) (sh tx : String)
    (hne : items ≠ [])
    (htrig : st.trim.maxTurns ≤ st.trim.internalTurnCounter + countUserTurns items)
    (hpre : summPrefixOf st.trim.keepLastNTurns (st.trim.items ++ items) ≠ [])
    (hsum : f (summPrefixOf st.trim.keepLastNTurns (st.trim.items ++ items)) = Except.ok (sh, tx))
    (htx : tx ≠ "") :
    (SummarizingSession.addItems f st items).trim.items =
      ((if sh ≠ "" then [userShadowItem sh] else []) ++ [assistantSummaryItem tx])
        ++ summSuffixOf st.trim.keepLastNTurns (st.trim.items ++ items) ∧
    (SummarizingSession.addItems f st items).lastSummary = some (sh, tx) := by
  simp only [SummarizingSession.addItems, if_neg hne]
  rw [if_neg (by omega)]
  simp [hpre, hsum, htx]

/-- Witness for C3 at a concrete session state and summarizer. -/
theorem claim_C3_witness :
    summPrefixOf (SummarizingSession.mkState 1 1).trim.keepLastNTurns
        ((SummarizingSession.mkState 1 1).trim.items ++ [uMsg 0, uMsg 1]) ≠ [] ∧
    (SummarizingSession.addItems summOkStub
        (SummarizingSession.mkState 1 1) [uMsg 0, uMsg 1]).trim.items =
      ((if "SH" ≠ "" then [userShadowItem "SH"] else []) ++ [assistantSummaryItem "TX"])
        ++ summSuffixOf (SummarizingSession.mkState 1 1).trim.keepLastNTurns
            ((SummarizingSession.mkState 1 1).trim.items ++ [uMsg 0, uMsg 1]) :=
  ⟨by decide,
   (claim_C3 summOkStub (SummarizingSession.mkState 1 1) [uMsg 0, uMsg 1] "SH" "TX"
      (by decide) (by decide) (by decide) rfl (by decide)).1⟩

/-- C4: When the summarizer raises on a nonempty prefix, the
SummarizingSession still replaces the prefix, substituting the fixed
fallback shadow line and the fixed nonempty fallback summary text, storing
them as a successful summarization. -/
theorem claim_C4 (f : List Item → Except String (String × String))
    (st : SummState) (items : List Item) (e : String)
    (hne : items ≠ [])
    (htrig : st.trim.maxTurns ≤ st.trim.internalTurnCounter + countUserTurns items)
    (hpre : summPrefixOf st.trim.keepLastNTurns (st.trim.items ++ items) ≠ [])
    (hsum : f (summPrefixOf st.trim.keepLastNTurns (st.trim.items ++ items)) = Except.error e) :
    (SummarizingSession.addItems f st items).trim.items =
      [userShadowItem fallbackShadowLine, assistantSummaryItem fallbackSummaryText]
        ++ summSuffixOf st.trim.keepLastNTurns (st.trim.items ++ items) ∧
    (SummarizingSession.addItems f st items).lastSummary =
      some (fallbackShadowLine, fallbackSummaryText) ∧
    (SummarizingSession.addItems f st items).didSummarizeRecently = true ∧
    fallbackShadowLine = "Summarize the conversation we had so far." ∧
    fallbackSummaryText ≠ "" := by
  have h1 : fallbackShadowLine ≠ "" := by decide
  have h2 : fallbackSummaryText ≠ "" := by decide
  refine ⟨?_, ?_, ?_, rfl, h2⟩ <;>
    (simp only [SummarizingSession.addItems, if_neg hne]
     rw [if_neg (by omega)]
     simp [hpre, hsum, h1, h2])

/-- Witness for C4 at a concrete session state and failing summarizer. -/
theorem claim_C4_witness :
    summPrefixOf (SummarizingSession.mkState 1 1).trim.keepLastNTurns
        ((SummarizingSession.mkState 1 1).trim.items ++ [uMsg 0, uMsg 1]) ≠ [] ∧
    (SummarizingSession.addItems summErrStub
        (SummarizingSession.mkState 1 1) [uMsg 0, uMsg 1]).trim.items =
      [userShadowItem fallbackShadowLine, assistantSummaryItem fallbackSummaryText]
        ++ summSuffixOf (SummarizingSession.mkState 1 1).trim.keepLastNTurns
            ((SummarizingSession.mkState 1 1).trim.items ++ [uMsg 0, uMsg 1]) :=
  ⟨by decide,
   (claim_C4 summErrStub (SummarizingSession.mkState 1 1) [uMsg 0, uMsg 1] "backend unavailable"
      (by decide) (by decide) (by decide) rfl).1⟩

/-- C5 counterexample: reconfiguring keepLastNTurns downward trims two
user items holding a nonzero estimated usage, yet the recorded usage delta
stays all-zero, whereas an add_items trim removing the same items would
have recorded their usage as a negative delta. -/
theorem claim_C5_counterexample :
    (TrimmingSession.setKeepLastNTurns reconfScenario 1).items = [uMsg 2] ∧
    (TrimmingSession.setKeepLastNTurns reconfScenario 1).didTrimRecently = true ∧
    (TrimmingSession.setKeepLastNTurns reconfScenario 1).lastContextDeltaUsage = ({} : Usage) ∧
    (estimateUsageForItems [uMsg 0, uMsg 1]).userInput = 2 := by decide

/-- C5 (amended): set_max_turns and set_keep_last_n_turns re-apply the
windowing algorithm immediately to the existing items under the new
parameters and adjust the turn counter the way add_items does on a trim
(keeping it equal to the retained user-turn count), but record no usage
delta; in particular reconfiguring keepLastNTurns downward trims to the
new bound at once. -/
theorem claim_C5 (st : TrimState) (m n : Nat)
    (hsync : st.internalTurnCounter = countUserTurns st.items)
    (hm1 : 1 ≤ st.maxTurns)
    (hk1 : 1 ≤ st.keepLastNTurns)
    (hmneq : max 1 m ≠ st.maxTurns)
    (hneq : min (max 1 n) st.maxTurns ≠ st.keepLastNTurns) :
    (TrimmingSession.setMaxTurns st m).lastContextDeltaUsage = st.lastContextDeltaUsage ∧
    (TrimmingSession.setKeepLastNTurns st n).lastContextDeltaUsage = st.lastContextDeltaUsage ∧
    countUserTurns (TrimmingSession.setMaxTurns st m).items =
      (if countUserTurns st.items < max 1 m then countUserTurns st.items
       else min st.keepLastNTurns (max 1 m)) ∧
    (TrimmingSession.setMaxTurns st m).internalTurnCounter =
      countUserTurns (TrimmingSession.setMaxTurns st m).items ∧
    countUserTurns (TrimmingSession.setKeepLastNTurns st n).items =
      min (min (max 1 n) st.maxTurns) (countUserTurns st.items) ∧
    (TrimmingSession.setKeepLastNTurns st n).internalTurnCounter =
      countUserTurns (TrimmingSession.setKeepLastNTurns st n).items :=
  ⟨setMaxTurns_keeps_delta st m, setKeepLastNTurns_keeps_delta st n,
   (setMax_spec st m hsync hk1 hmneq).1, (setMax_spec st m hsync hk1 hmneq).2,
   (setKeep_spec st n hsync hm1 hneq).1, (setKeep_spec st n hsync hm1 hneq).2⟩

/-- Witness for C5 at a concrete session state, exercising both setters. -/
theorem claim_C5_witness :
    max 1 5 ≠ reconfScenario.maxTurns ∧
    min (max 1 1) reconfScenario.maxTurns ≠ reconfScenario.keepLastNTurns ∧
    countUserTurns (TrimmingSession.setMaxTurns reconfScenario 5).items =
      (if countUserTurns reconfScenario.items < max 1 5 then countUserTurns reconfScenario.items
       else min reconfScenario.keepLastNTurns (max 1 5)) ∧
    countUserTurns (TrimmingSession.setKeepLastNTurns reconfScenario 1).items =
      min (min (max 1 1) reconfScenario.maxTurns) (countUserTurns reconfScenario.items) :=
  ⟨by decide, by decide,
   (claim_C5 reconfScenario 5 1 (by decide) (by decide) (by decide) (by decide)
      (by decide)).2.2.1,
   (claim_C5 reconfScenario 5 1 (by decide) (by decide) (by decide) (by decide)
      (by decide)).2.2.2.2.1⟩

/-- C6: token estimation is 0 on empty text and ceil(length/4) on nonempty
text, never negative; usage estimation is a total function equal to the
per-item bucketing by role (user to userInput, tool-role to tools,
assistant and absent or unrecognized roles to agentOutput, tool-role items
naming the retrieval tool SearchPolicy additionally to rag). -/
theorem claim_C6 :
    (∀ text : String, text = "" → estimateTokens text = 0) ∧
    (∀ text : String, text ≠ "" →
      estimateTokens text = (text.length + 3) / 4 ∧
      text.length ≤ 4 * estimateTokens text ∧
      4 * estimateTokens text < text.length + 4) ∧
    (∀ text : String, 0 ≤ (estimateTokens text : Int)) ∧
    (∀ items : List Item, estimateUsageForItems items = usageSpec items) := by
  refine ⟨?_, ?_, ?_, estimateUsage_eq_spec⟩
  · intro t ht
    simp [estimateTokens, ht]
  · intro t ht
    have h1 : estimateTokens t = (t.length + 3) / 4 := by simp [estimateTokens, ht]
    exact ⟨h1, by rw [h1]; omega, by rw [h1]; omega⟩
  · intro t
    omega

/-- Witness for C6 at a concrete text and item list. -/
theorem claim_C6_witness :
    ("abcde" ≠ "") ∧ estimateTokens "abcde" = ("abcde".length + 3) / 4 :=
  ⟨by decide, (claim_C6.2.1 "abcde" (by decide)).1⟩

/-- C7 counterexample: with a summarizer returning an empty shadow line and
a nonempty summary, the suffix keeps one user turn and no synthetic
user-role item is inserted, yet the turn counter becomes 2, not the
claimed (user turns in suffix) + 0 = 1. -/
theorem claim_C7_counterexample :
    summCtrScenario.trim.items = [assistantSummaryItem "S", uMsg 2] ∧
    countUserTurns (summSuffixOf 1 (([] : List Item) ++ [uMsg 0, uMsg 1, uMsg 2])) = 1 ∧
    summCtrScenario.trim.internalTurnCounter = 2 ∧
    summCtrScenario.trim.internalTurnCounter ≠
      min (countUserTurns (summSuffixOf 1 (([] : List Item) ++ [uMsg 0, uMsg 1, uMsg 2])) + 0) 3 := by
  decide

/-- C7 (amended): after a triggered summarization with a nonempty prefix,
the turn counter equals the user turns remaining in the kept suffix plus 1
when any synthetic item was inserted (that is, when the summary text is
nonempty) - not only when a synthetic user item was inserted - clamped to
the context limit. -/
theorem claim_C7 (f : List Item → Except String (String × String))
    (st : SummState) (items : List Item) (sh tx : String)
    (hne : items ≠ [])
    (htrig : st.trim.maxTurns ≤ st.trim.internalTurnCounter + countUserTurns items)
    (hpre : summPrefixOf st.trim.keepLastNTurns (st.trim.items ++ items) ≠ [])
    (hsum : f (summPrefixOf st.trim.keepLastNTurns (st.trim.items ++ items)) = Except.ok (sh, tx)) :
    (SummarizingSession.addItems f st items).trim.internalTurnCounter =
      min (countUserTurns (summSuffixOf st.trim.keepLastNTurns (st.trim.items ++ items))
            + (if tx = "" then 0 else 1))
        st.trim.maxTurns := by
  simp only [SummarizingSession.addItems, if_neg hne]
  rw [if_neg (by omega)]
  by_cases htx : tx = ""
  · simp [hpre, hsum, htx]
  · simp [hpre, hsum, htx]

/-- Witness for C7 at a concrete session state and summarizer. -/
theorem claim_C7_witness :
    (SummarizingSession.mkState 1 3).trim.maxTurns ≤
      (SummarizingSession.mkState 1 3).trim.internalTurnCounter
        + countUserTurns [uMsg 0, uMsg 1, uMsg 2] ∧
    (SummarizingSession.addItems emptyShadowSummarizer (SummarizingSession.mkState 1 3)
        [uMsg 0, uMsg 1, uMsg 2]).trim.internalTurnCounter =
      min (countUserTurns (summSuffixOf (SummarizingSession.mkState 1 3).trim.keepLastNTurns
            ((SummarizingSession.mkState 1 3).trim.items ++ [uMsg 0, uMsg 1, uMsg 2]))
          + (if "S" = "" then 0 else 1))
        (SummarizingSession.mkState 1 3).trim.maxTurns :=
  ⟨by decide,
   claim_C7 emptyShadowSummarizer (SummarizingSession.mkState 1 3)
      [uMsg 0, uMsg 1, uMsg 2] "" "S" (by decide) (by decide) (by decide) rfl⟩

/-- C8 counterexample: invoked with forced trimming and keepLastNTurns 0 on
a one-item sequence, the windowing function returns the sequence unchanged,
not the empty sequence. -/
theorem claim_C8_counterexample :
    (TrimmingSession.trimToLastTurns 5 0 true [uMsg 0]).1 = [uMsg 0] ∧
    (TrimmingSession.trimToLastTurns 5 0 true [uMsg 0]).1 ≠ [] := by decide

/-- C8 (amended): with keepLastNTurns 0 the windowing function returns the
sequence unchanged together with its user-turn count, forced or not: the
backward scan never finds a 0-th user item, so the slice start stays 0. -/
theorem claim_C8 (maxT : Nat) (force : Bool) (items : List Item) :
    TrimmingSession.trimToLastTurns maxT 0 force items = (items, countUserTurns items) :=
  trim_zero_keep maxT force items

/-- C9: an item marked compacted counts zero tokens; each compaction records
the (after - before) token difference into the pending tools delta only
when negative; a nonempty add_items folds the accumulated pending delta
into the reported tools delta exactly once and resets it to zero. -/
theorem claim_C9 (counter : Item → Int) (pairs : List (Item × Item))
    (st : CompactState) (new : List Item) (marked before after : Item)
    (hne : new ≠ []) (hpend : st.pendingToolsDelta ≤ 0)
    (hmarked : marked.compacted = true) :
    TrackingCompactingSession.tokenCount counter marked = 0 ∧
    (TrackingCompactingSession.recordCompactionDelta counter st before after).pendingToolsDelta =
      st.pendingToolsDelta +
        min 0 (TrackingCompactingSession.tokenCount counter after -
               TrackingCompactingSession.tokenCount counter before) ∧
    (TrackingCompactingSession.addItems counter pairs st new).pendingToolsDelta = 0 ∧
    (TrackingCompactingSession.addItems counter pairs st new).lastContextDeltaUsage.tools =
      st.lastContextDeltaUsage.tools + st.pendingToolsDelta +
        (pairs.map (fun p =>
          min 0 (TrackingCompactingSession.tokenCount counter p.2 -
                 TrackingCompactingSession.tokenCount counter p.1))).sum := by
  refine ⟨?_, recordCompactionDelta_pending counter st before after,
    (compacting_addItems_spec counter pairs st new hne hpend).1,
    (compacting_addItems_spec counter pairs st new hne hpend).2⟩
  simp [TrackingCompactingSession.tokenCount, hmarked]

/-- Witness for C9 at a concrete compaction. -/
theorem claim_C9_witness :
    compactAfterW.compacted = true ∧
    TrackingCompactingSession.tokenCount constTokenCounter compactAfterW = 0 ∧
    (TrackingCompactingSession.addItems constTokenCounter [(compactBeforeW, compactAfterW)]
        ({} : CompactState) [uMsg 0]).pendingToolsDelta = 0 :=
  ⟨by decide,
   (claim_C9 constTokenCounter [(compactBeforeW, compactAfterW)] ({} : CompactState)
      [uMsg 0] compactAfterW compactBeforeW compactAfterW
      (by decide) (by decide) (by decide)).1,
   (claim_C9 constTokenCounter [(compactBeforeW, compactAfterW)] ({} : CompactState)
      [uMsg 0] compactAfterW compactBeforeW compactAfterW
      (by decide) (by decide) (by decide)).2.2.1⟩

/-- C10: get_items with a positive limit returns the last limit items of
the retained sequence; with limit 0 it returns the entire retained sequence
(the slice start -0 is the nonnegative index 0); with a negative limit it
also returns the entire retained sequence - for the Default session over
its stored items and for the Trimming session over its windowed view. -/
theorem claim_C10 (ds : DefaultState) (ts : TrimState) (l : Int) :
    (0 < l →
      DefaultSession.getItems ds (some l) = lastNSpec ds.items l.toNat ∧
      TrimmingSession.getItems ts (some l) = lastNSpec (trimmedView ts) l.toNat) ∧
    (DefaultSession.getItems ds (some 0) = ds.items ∧
     TrimmingSession.getItems ts (some 0) = trimmedView ts) ∧
    (l < 0 →
      DefaultSession.getItems ds (some l) = ds.items ∧
      TrimmingSession.getItems ts (some l) = trimmedView ts) := by
  simp only [DefaultSession.getItems, TrimmingSession.getItems, lastNSpec, trimmedView]
  refine ⟨fun hl => ⟨pyTailSlice_pos _ _ hl, pyTailSlice_pos _ _ hl⟩,
          ⟨pyTailSlice_zero _, pyTailSlice_zero _⟩,
          fun hl => ⟨pyTailSlice_neg _ _ hl, pyTailSlice_neg _ _ hl⟩⟩

/-- Witness for C10 at a concrete state and limit. -/
theorem claim_C10_witness :
    ((0 : Int) < 2) ∧ DefaultSession.getItems dsW (some 2) = lastNSpec dsW.items (2 : Int).toNat :=
  ⟨by decide, ((claim_C10 dsW tsW 2).1 (by decide)).1⟩
